import Mathlib

/-!
Verification of `benchmark-compression.py`: a shallow embedding of the
benchmark harness (the per-trial runner `benchmark_algo` and the codec ×
level matrix enumerated in `main`), together with theorems settling the
specification's claims about it.

Modelling conventions:
* Byte strings are `List Nat` (only constructors, lengths and equality
  matter to the harness).
* Compressor / decompressor calls are oracles `Bytes → Option Bytes`;
  `none` models a raised exception (`except Exception` in the script).
* Wall-clock measurements (`time.perf_counter()` differences) are
  nondeterministic inputs, passed to the embedding as rational oracles.
* Python's `round(x, n)` (round-half-even at `n` decimal digits) is
  modelled exactly on rationals by `pyRound`.
-/

/-- Byte strings, as lists of byte values. -/
abbrev Bytes := List Nat

/-- `MEBIBYTE = 1024 * 1024` from the script's constants. -/
def MEBIBYTE : Nat := 1024 * 1024

/-- Round a rational to the nearest integer, ties to the even integer
(Python's `round` semantics on exact values). -/
def roundHalfEven (q : ℚ) : ℤ :=
  if q - ⌊q⌋ < 1/2 then ⌊q⌋
  else if 1/2 < q - ⌊q⌋ then ⌊q⌋ + 1
  else if ⌊q⌋ % 2 = 0 then ⌊q⌋ else ⌊q⌋ + 1

/-- Python's `round(q, ndigits)` on exact rationals: round-half-even at
`ndigits` decimal places. -/
def pyRound (ndigits : Nat) (q : ℚ) : ℚ :=
  (roundHalfEven (q * 10 ^ ndigits) : ℚ) / 10 ^ ndigits

/-- Python's `range(a, b)` as a list of integers `a, a+1, …, b-1`. -/
def pyRange (a b : ℤ) : List ℤ :=
  (List.range (b - a).toNat).map (fun i : ℕ => a + (i : ℤ))

/-- A Python `level` argument value: the script passes either an integer
(gzip, bzip2, xz, zstd, lz4) or the string `"default"` (snappy). -/
inductive LevelVal where
  | int (n : ℤ)
  | str (s : String)
deriving DecidableEq, Repr

/-- The dictionary returned by `benchmark_algo` (lines 99–109 of the
script): one persisted trial record. -/
structure TrialResult where
  method : String
  level : Option LevelVal
  version : String
  compression_time_seconds : ℚ
  decompression_time_seconds : ℚ
  compression_throughput_mib_s : ℚ
  decompression_throughput_mib_s : ℚ
  compressed_size_bytes : Nat
deriving DecidableEq, Repr

/-- `size_mib / elapsed if elapsed > 0 else 0` — the throughput
computation at lines 72 and 86 of the script. -/
def throughput (sizeMib elapsed : ℚ) : ℚ :=
  if 0 < elapsed then sizeMib / elapsed else 0

/-- `size_mib = original_size / MEBIBYTE` for a corpus. -/
def sizeMib (data : Bytes) : ℚ := (data.length : ℚ) / (MEBIBYTE : ℚ)

/-- Shallow embedding of `benchmark_algo(name, compress_func,
decompress_func, data, version, level)`.  `compTime` and `decompTime` are
the measured `time.perf_counter()` differences for the two phases.  A
compressor/decompressor returning `none` models a raised exception; the
integrity gate (`len(decompressed_data) != original_size` raising
`RuntimeError` inside the decompression `try`) makes the trial fail
exactly as a decompression fault does.  `none` is the script's
`return None`. -/
def benchAlgo (name : String) (compress_func : Bytes → Option Bytes)
    (decompress_func : Bytes → Option Bytes) (data : Bytes)
    (version : String) (level : Option LevelVal)
    (compTime decompTime : ℚ) : Option TrialResult :=
  match compress_func data with
  | none => none
  | some compressed_data =>
    match decompress_func compressed_data with
    | none => none
    | some decompressed_data =>
      if decompressed_data.length ≠ data.length then none
      else
        some
          { method := name
            level := level
            version := version
            compression_time_seconds := pyRound 4 compTime
            decompression_time_seconds := pyRound 4 decompTime
            compression_throughput_mib_s :=
              pyRound 2 (throughput (sizeMib data) compTime)
            decompression_throughput_mib_s :=
              pyRound 2 (throughput (sizeMib data) decompTime)
            compressed_size_bytes := compressed_data.length }

/-- A JSON value, as far as the script's output document needs. -/
inductive JVal where
  | str (s : String)
  | num (q : ℚ)
  | int (n : ℤ)
  | null
deriving DecidableEq, Repr

/-- How a `level` value serializes into the JSON document. -/
def levelJson : Option LevelVal → JVal
  | none => .null
  | some (.int n) => .int n
  | some (.str s) => .str s

/-- The JSON object persisted for one trial: the key/value pairs of the
dictionary literal at lines 99–109, in source order. -/
def trialResultJson (r : TrialResult) : List (String × JVal) :=
  [("method", .str r.method),
   ("level", levelJson r.level),
   ("version", .str r.version),
   ("compression_time_seconds", .num r.compression_time_seconds),
   ("decompression_time_seconds", .num r.decompression_time_seconds),
   ("compression_throughput_mib_s", .num r.compression_throughput_mib_s),
   ("decompression_throughput_mib_s", .num r.decompression_throughput_mib_s),
   ("compressed_size_bytes", .int r.compressed_size_bytes)]

/-- The run metadata object built in `main` (lines 235–240).  The
timestamp, platform string and Python version string are environment
reads, passed in as oracle strings. -/
structure RunMetadata where
  timestamp : String
  platform : String
  python_version : String
  original_file_size_bytes : Nat
deriving DecidableEq, Repr

/-- `main`'s `metadata` dictionary: `time.strftime(...)`,
`platform.platform()`, `platform.python_version()` and
`len(original_data)`. -/
def collectMetadata (ts pf pv : String) (original_data : Bytes) : RunMetadata :=
  { timestamp := ts
    platform := pf
    python_version := pv
    original_file_size_bytes := original_data.length }

/-- The JSON object persisted as `metadata` (lines 235–240), key/value
pairs in source order. -/
def metadataJson (m : RunMetadata) : List (String × JVal) :=
  [("timestamp", .str m.timestamp),
   ("platform", .str m.platform),
   ("python_version", .str m.python_version),
   ("original_file_size_bytes", .int m.original_file_size_bytes)]

/-- One codec as `main` drives it: a name, the list of level values
swept (in source iteration order), a level-indexed compressor, a
decompressor, a version string, and per-level measured times for the two
phases (oracles for the `time.perf_counter()` readings of that trial). -/
structure Codec where
  name : String
  levels : List LevelVal
  compress : LevelVal → Bytes → Option Bytes
  decompress : Bytes → Option Bytes
  version : String
  times : LevelVal → ℚ × ℚ

/-- One codec's section of `main`: loop over its levels, call
`benchmark_algo`, and keep the result when it is not `None`
(`if res: results.append(res)`). -/
def runCodec (c : Codec) (data : Bytes) : List TrialResult :=
  c.levels.filterMap (fun l =>
    benchAlgo c.name (c.compress l) c.decompress data c.version (some l)
      (c.times l).1 (c.times l).2)

/-- The whole matrix: codec sections in source order, each appending its
successful results to the shared `results` list. -/
def runAll (codecs : List Codec) (data : Bytes) : List TrialResult :=
  codecs.flatMap (fun c => runCodec c data)

/-- Levels swept for gzip: `range(1, 10)` (line 119). -/
def gzipLevels : List LevelVal := (pyRange 1 10).map .int

/-- Levels swept for bzip2: `range(1, 10)` (line 134). -/
def bzip2Levels : List LevelVal := (pyRange 1 10).map .int

/-- Levels swept for xz/LZMA: `range(0, 10)` (line 149). -/
def xzLevels : List LevelVal := (pyRange 0 10).map .int

/-- Levels swept for zstd: `range(1, max_zstd + 1)` (line 172), where
`max_zstd` is `zstd.MAX_COMPRESSION_LEVEL` (19 on probe failure). -/
def zstdLevels (maxZstd : ℤ) : List LevelVal := (pyRange 1 (maxZstd + 1)).map .int

/-- Levels swept for lz4: `list(range(0, 13)) + [16]` (line 197). -/
def lz4Levels : List LevelVal := (pyRange 0 13).map .int ++ [.int 16]

/-- Snappy's single unleveled trial: `level="default"` (line 226). -/
def snappyLevels : List LevelVal := [.str "default"]

/-- The codec list `main` benchmarks, in source order, when every
optional module is importable (`HAS_ZSTD`, `HAS_LZ4`, `HAS_SNAPPY` all
true).  Compressors, decompressors, versions, the zstd maximum level and
the measured times are oracles; the names and level sweeps are the
script's. -/
def mainCodecs (oc : String → LevelVal → Bytes → Option Bytes)
    (od : String → Bytes → Option Bytes) (ver : String → String)
    (maxZstd : ℤ) (tm : String → LevelVal → ℚ × ℚ) : List Codec :=
  [{ name := "gzip", levels := gzipLevels, compress := oc "gzip",
     decompress := od "gzip", version := ver "gzip", times := tm "gzip" },
   { name := "bzip2", levels := bzip2Levels, compress := oc "bzip2",
     decompress := od "bzip2", version := ver "bzip2", times := tm "bzip2" },
   { name := "xz", levels := xzLevels, compress := oc "xz",
     decompress := od "xz", version := ver "xz", times := tm "xz" },
   { name := "zstd", levels := zstdLevels maxZstd, compress := oc "zstd",
     decompress := od "zstd", version := ver "zstd", times := tm "zstd" },
   { name := "lz4", levels := lz4Levels, compress := oc "lz4",
     decompress := od "lz4", version := ver "lz4", times := tm "lz4" },
   { name := "snappy", levels := snappyLevels, compress := oc "snappy",
     decompress := od "snappy", version := ver "snappy", times := tm "snappy" }]

/-- The codec names `main` benchmarks, in order. -/
def mainCodecNames : List String := ["gzip", "bzip2", "xz", "zstd", "lz4", "snappy"]

/-! ## Helper lemmas -/

/-- A successful trial: both codec calls return, lengths agree, and the
assembled record is exactly the dictionary of lines 99–109. -/
theorem benchAlgo_of_success {cf df : Bytes → Option Bytes} {data cd dd : Bytes}
    (h1 : cf data = some cd) (h2 : df cd = some dd)
    (h3 : dd.length = data.length) (name v : String) (lvl : Option LevelVal)
    (t₁ t₂ : ℚ) :
    benchAlgo name cf df data v lvl t₁ t₂ =
      some { method := name, level := lvl, version := v
             compression_time_seconds := pyRound 4 t₁
             decompression_time_seconds := pyRound 4 t₂
             compression_throughput_mib_s :=
               pyRound 2 (throughput (sizeMib data) t₁)
             decompression_throughput_mib_s :=
               pyRound 2 (throughput (sizeMib data) t₂)
             compressed_size_bytes := cd.length } := by
  simp [benchAlgo, h1, h2, h3]

/-- Inversion: a produced trial record determines successful compress and
decompress calls with matching lengths, and fixes every field. -/
theorem benchAlgo_some_inv {name v : String} {cf df : Bytes → Option Bytes}
    {data : Bytes} {lvl : Option LevelVal} {t₁ t₂ : ℚ} {r : TrialResult}
    (h : benchAlgo name cf df data v lvl t₁ t₂ = some r) :
    ∃ cd dd, cf data = some cd ∧ df cd = some dd ∧ dd.length = data.length ∧
      r.method = name ∧ r.level = lvl ∧ r.version = v ∧
      r.compression_time_seconds = pyRound 4 t₁ ∧
      r.decompression_time_seconds = pyRound 4 t₂ ∧
      r.compression_throughput_mib_s = pyRound 2 (throughput (sizeMib data) t₁) ∧
      r.decompression_throughput_mib_s = pyRound 2 (throughput (sizeMib data) t₂) ∧
      r.compressed_size_bytes = cd.length := by
  cases hc : cf data with
  | none => simp [benchAlgo, hc] at h
  | some cd =>
    cases hd : df cd with
    | none => simp [benchAlgo, hc, hd] at h
    | some dd =>
      by_cases hl : dd.length = data.length
      · rw [benchAlgo_of_success hc hd hl] at h
        obtain rfl := Option.some.inj h
        exact ⟨cd, dd, rfl, hd, hl, rfl, rfl, rfl, rfl, rfl, rfl, rfl, rfl⟩
      · simp [benchAlgo, hc, hd, hl] at h

/-- A compression fault ends the trial with no record. -/
theorem benchAlgo_none_of_compress_fail {cf : Bytes → Option Bytes}
    {data : Bytes} (h : cf data = none) (name v : String)
    (df : Bytes → Option Bytes) (lvl : Option LevelVal) (t₁ t₂ : ℚ) :
    benchAlgo name cf df data v lvl t₁ t₂ = none := by
  simp [benchAlgo, h]

/-- When every element maps to `some`, `filterMap` drops nothing. -/
theorem length_filterMap_of_forall_isSome {α β : Type} {g : α → Option β}
    {L : List α} (h : ∀ a ∈ L, (g a).isSome) :
    (L.filterMap g).length = L.length := by
  induction L with
  | nil => simp
  | cons a L ih =>
    obtain ⟨b, hb⟩ := Option.isSome_iff_exists.mp (h a (by simp))
    simp [List.filterMap_cons, hb,
      ih (fun x hx => h x (List.mem_cons_of_mem a hx))]

/-- Pointwise description of a total `filterMap` through a projection. -/
theorem map_filterMap_of_forall {α β γ : Type} {g : α → Option β}
    {L : List α} {f : β → γ} {k : α → γ}
    (h : ∀ a ∈ L, ∃ b, g a = some b ∧ f b = k a) :
    (L.filterMap g).map f = L.map k := by
  induction L with
  | nil => simp
  | cons a L ih =>
    obtain ⟨b, hb, hfb⟩ := h a (by simp)
    simp [List.filterMap_cons, hb, hfb,
      ih (fun x hx => h x (List.mem_cons_of_mem a hx))]

/-- Every record a codec section emits carries that codec's name. -/
theorem mem_runCodec_method {c : Codec} {data : Bytes} {r : TrialResult}
    (h : r ∈ runCodec c data) : r.method = c.name := by
  obtain ⟨l, _, hl⟩ := List.mem_filterMap.mp h
  obtain ⟨cd, dd, _, _, _, hm, _⟩ := benchAlgo_some_inv hl
  exact hm

/-- A codec whose decompressor always raises contributes no records. -/
theorem runCodec_eq_nil_of_decompress_fail {c : Codec} {data : Bytes}
    (h : ∀ b, c.decompress b = none) : runCodec c data = [] := by
  rw [runCodec, List.filterMap_eq_nil_iff]
  intro l _
  cases hc : c.compress l data with
  | none => simp [benchAlgo, hc]
  | some cd => simp [benchAlgo, hc, h cd]

/-- The matrix concatenates codec sections in order. -/
theorem runAll_append (xs ys : List Codec) (data : Bytes) :
    runAll (xs ++ ys) data = runAll xs data ++ runAll ys data := by
  simp [runAll]

/-- The length of a Python `range(a, b)`. -/
theorem pyRange_length (a b : ℤ) : (pyRange a b).length = (b - a).toNat := by
  simp [pyRange]

/-- A Python `range(a, b)` is strictly increasing (hence its members are
pairwise distinct and in ascending order). -/
theorem pyRange_pairwise (a b : ℤ) : (pyRange a b).Pairwise (· < ·) := by
  unfold pyRange
  refine List.Pairwise.map _ (fun i j (h : i < j) => ?_)
    (List.pairwise_lt_range _)
  omega

/-! ## Claim theorems -/

/-- C1: a Trial Result is produced only when the decompressed output's byte
length equals the original corpus length; when the lengths mismatch the
trial ends with no record — exactly like a decompression failure — even
though the decompress call itself returned normally. -/
theorem C1_integrity_gate (name v : String) (cf df : Bytes → Option Bytes)
    (data : Bytes) (lvl : Option LevelVal) (t₁ t₂ : ℚ) :
    (∀ r, benchAlgo name cf df data v lvl t₁ t₂ = some r →
      ∃ cd dd, cf data = some cd ∧ df cd = some dd ∧
        dd.length = data.length) ∧
    (∀ cd dd, cf data = some cd → df cd = some dd →
      dd.length ≠ data.length →
      benchAlgo name cf df data v lvl t₁ t₂ = none) := by
  constructor
  · intro r h
    obtain ⟨cd, dd, h1, h2, h3, _⟩ := benchAlgo_some_inv h
    exact ⟨cd, dd, h1, h2, h3⟩
  · intro cd dd h1 h2 h3
    simp [benchAlgo, h1, h2, h3]

/-- C1 witness: a decompressor that returns 2 bytes for a 1-byte corpus
passes no fault yet yields no Trial Result. -/
theorem C1_integrity_gate_witness :
    benchAlgo "gzip" (fun _ => some [1]) (fun _ => some [2, 3]) [7] "3.11"
      (some (.int 1)) 1 1 = none :=
  (C1_integrity_gate "gzip" "3.11" (fun _ => some [1]) (fun _ => some [2, 3])
    [7] (some (.int 1)) 1 1).2 [1] [2, 3] rfl rfl (by decide)

/-- C4: when the compress call raises, the trial yields no Trial Result and
the decompressor is never consulted: the outcome is the same for any two
decompressors. -/
theorem C4_compress_failure_short_circuit (name v : String)
    (cf df₁ df₂ : Bytes → Option Bytes) (data : Bytes)
    (lvl : Option LevelVal) (t₁ t₂ : ℚ) (h : cf data = none) :
    benchAlgo name cf df₁ data v lvl t₁ t₂ = none ∧
    benchAlgo name cf df₁ data v lvl t₁ t₂ =
      benchAlgo name cf df₂ data v lvl t₁ t₂ := by
  refine ⟨benchAlgo_none_of_compress_fail h name v df₁ lvl t₁ t₂, ?_⟩
  rw [benchAlgo_none_of_compress_fail h name v df₁ lvl t₁ t₂,
    benchAlgo_none_of_compress_fail h name v df₂ lvl t₁ t₂]

/-- C4 witness: a failing compressor at a concrete corpus. -/
theorem C4_compress_failure_short_circuit_witness :
    benchAlgo "xz" (fun _ => none) (fun _ => some []) [0] "3.11"
      (some (.int 0)) 1 1 = none ∧
    benchAlgo "xz" (fun _ => none) (fun _ => some []) [0] "3.11"
      (some (.int 0)) 1 1 =
      benchAlgo "xz" (fun _ => none) (fun _ => none) [0] "3.11"
        (some (.int 0)) 1 1 :=
  C4_compress_failure_short_circuit "xz" "3.11" (fun _ => none)
    (fun _ => some []) (fun _ => none) [0] (some (.int 0)) 1 1 rfl

/-- C10: every produced Trial Result stores the measured phase times
rounded to 4 decimal places, the computed throughputs rounded to 2 decimal
places, and the exact byte length of the compressed output. -/
theorem C10_persisted_numeric_fields (name v : String)
    (cf df : Bytes → Option Bytes) (data : Bytes) (lvl : Option LevelVal)
    (t₁ t₂ : ℚ) (r : TrialResult)
    (h : benchAlgo name cf df data v lvl t₁ t₂ = some r) :
    r.compression_time_seconds = pyRound 4 t₁ ∧
    r.decompression_time_seconds = pyRound 4 t₂ ∧
    r.compression_throughput_mib_s =
      pyRound 2 (throughput (sizeMib data) t₁) ∧
    r.decompression_throughput_mib_s =
      pyRound 2 (throughput (sizeMib data) t₂) ∧
    ∃ cd, cf data = some cd ∧ r.compressed_size_bytes = cd.length := by
  obtain ⟨cd, dd, h1, h2, h3, _, _, _, h4, h5, h6, h7, h8⟩ :=
    benchAlgo_some_inv h
  exact ⟨h4, h5, h6, h7, cd, h1, h8⟩

/-- C10 witness: a concrete successful trial on a 1-byte corpus with
elapsed times 1 s and 2 s. -/
theorem C10_persisted_numeric_fields_witness :
    (1 : ℚ) = pyRound 4 1 ∧ (2 : ℚ) = pyRound 4 2 ∧
    (0 : ℚ) = pyRound 2 (throughput (sizeMib [7]) 1) ∧
    (0 : ℚ) = pyRound 2 (throughput (sizeMib [7]) 2) ∧
    ∃ cd, (fun _ : Bytes => some [1, 2]) [7] = some cd ∧ 2 = cd.length :=
  C10_persisted_numeric_fields "gzip" "3.11" (fun _ => some [1, 2])
    (fun _ => some [9]) [7] (some (.int 5)) 1 2
    { method := "gzip", level := some (.int 5), version := "3.11"
      compression_time_seconds := 1, decompression_time_seconds := 2
      compression_throughput_mib_s := 0
      decompression_throughput_mib_s := 0
      compressed_size_bytes := 2 }
    (by norm_num [benchAlgo, throughput, sizeMib, pyRound, roundHalfEven,
      MEBIBYTE])

/-- C2 counterexample: on the empty corpus (a legal input: the script loads
whatever bytes the file holds) a successful trial records compression
throughput 0 although the measured elapsed time is 1 second, which does not
round to 0 — refuting the claimed "if and only if". -/
theorem C2_counterexample :
    (benchAlgo "gzip" (fun _ => some [0]) (fun _ => some []) [] "3.11"
        (some (.int 1)) 1 1).map (fun r => r.compression_throughput_mib_s) =
      some 0 ∧
    throughput (sizeMib []) 1 = 0 ∧ (1 : ℚ) ≠ 0 := by
  norm_num [benchAlgo, throughput, sizeMib, pyRound, roundHalfEven, MEBIBYTE]

/-- C2 (amended): for any trial on a NON-EMPTY corpus the computed
compression (and likewise decompression) throughput equals 0 iff the
measured elapsed time is 0; otherwise it equals corpus size in MiB divided
by the elapsed seconds, exactly.  (On an empty corpus the computed
throughput is 0 regardless of the elapsed time.) -/
theorem C2_throughput_zero_guard (data : Bytes) (t : ℚ) (hd : data ≠ [])
    (ht : 0 ≤ t) :
    (throughput (sizeMib data) t = 0 ↔ t = 0) ∧
    (t ≠ 0 → throughput (sizeMib data) t = sizeMib data / t) := by
  have hlen : 0 < data.length := List.length_pos.mpr hd
  have hs : 0 < sizeMib data := by
    apply div_pos (by exact_mod_cast hlen)
    norm_num [MEBIBYTE]
  have hpos : t ≠ 0 → 0 < t := fun hne => lt_of_le_of_ne ht (Ne.symm hne)
  refine ⟨⟨fun h => ?_, fun h => by simp [throughput, h]⟩, fun hne => ?_⟩
  · by_contra hne
    rw [throughput, if_pos (hpos hne)] at h
    exact absurd h (ne_of_gt (div_pos hs (hpos hne)))
  · rw [throughput, if_pos (hpos hne)]

/-- C2 witness: a 1-byte corpus with elapsed time 1 s. -/
theorem C2_throughput_zero_guard_witness :
    (throughput (sizeMib [0]) 1 = 0 ↔ (1 : ℚ) = 0) ∧
    ((1 : ℚ) ≠ 0 → throughput (sizeMib [0]) 1 = sizeMib [0] / 1) :=
  C2_throughput_zero_guard [0] 1 (by simp) (by norm_num)

/-- C3: an integer level domain `[a, b]` yields `b − a + 1` configurations,
strictly ascending (hence each level distinct); concretely, the gzip
section sweeps exactly levels 1..9, and when all nine trials succeed with
non-empty compressed output the results carry method "gzip", each level
1..9 exactly once in ascending order, and positive compressed sizes. -/
theorem C3_level_matrix (a b : ℤ) (hab : a ≤ b)
    (oc : LevelVal → Bytes → Option Bytes) (od : Bytes → Option Bytes)
    (ver : String) (tm : LevelVal → ℚ × ℚ) (data : Bytes)
    (hsucc : ∀ l ∈ gzipLevels, ∃ cd dd, oc l data = some cd ∧
      0 < cd.length ∧ od cd = some dd ∧ dd.length = data.length) :
    (pyRange a (b + 1)).length = (b - a + 1).toNat ∧
    (pyRange a (b + 1)).Pairwise (· < ·) ∧
    gzipLevels = [.int 1, .int 2, .int 3, .int 4, .int 5, .int 6, .int 7,
      .int 8, .int 9] ∧
    (runCodec ⟨"gzip", gzipLevels, oc, od, ver, tm⟩ data).length = 9 ∧
    (runCodec ⟨"gzip", gzipLevels, oc, od, ver, tm⟩ data).map
      (fun r => r.method) = List.replicate 9 "gzip" ∧
    (runCodec ⟨"gzip", gzipLevels, oc, od, ver, tm⟩ data).map
      (fun r => r.level) = gzipLevels.map some ∧
    ∀ r ∈ runCodec ⟨"gzip", gzipLevels, oc, od, ver, tm⟩ data,
      0 < r.compressed_size_bytes := by
  refine ⟨?_, pyRange_pairwise a (b + 1), by decide, ?_, ?_, ?_, ?_⟩
  · rw [pyRange_length]; omega
  · rw [runCodec, length_filterMap_of_forall_isSome, show gzipLevels.length = 9 by decide]
    intro l hl
    obtain ⟨cd, dd, h1, _, h2, h3⟩ := hsucc l hl
    rw [benchAlgo_of_success h1 h2 h3]
    rfl
  · rw [runCodec, map_filterMap_of_forall (k := fun _ => "gzip"), show gzipLevels.map (fun _ => "gzip") = List.replicate 9 "gzip" by decide]
    intro l hl
    obtain ⟨cd, dd, h1, _, h2, h3⟩ := hsucc l hl
    exact ⟨_, benchAlgo_of_success h1 h2 h3 _ _ _ _ _, rfl⟩
  · rw [runCodec, map_filterMap_of_forall (k := some)]
    intro l hl
    obtain ⟨cd, dd, h1, _, h2, h3⟩ := hsucc l hl
    exact ⟨_, benchAlgo_of_success h1 h2 h3 _ _ _ _ _, rfl⟩
  · intro r hr
    obtain ⟨l, hl, hgl⟩ := List.mem_filterMap.mp hr
    obtain ⟨cd, dd, h1, hpos, h2, h3⟩ := hsucc l hl
    rw [benchAlgo_of_success h1 h2 h3] at hgl
    obtain rfl := Option.some.inj hgl
    exact hpos

/-- C3 witness: the gzip sweep at a concrete always-succeeding codec pair
on a 1-byte corpus, with the general part instantiated at `[1, 9]`. -/
theorem C3_level_matrix_witness :
    (pyRange 1 (9 + 1)).length = ((9 : ℤ) - 1 + 1).toNat ∧
    (pyRange 1 (9 + 1)).Pairwise (· < ·) ∧
    gzipLevels = [.int 1, .int 2, .int 3, .int 4, .int 5, .int 6, .int 7,
      .int 8, .int 9] ∧
    (runCodec ⟨"gzip", gzipLevels, fun _ _ => some [1], fun _ => some [7],
        "3.11", fun _ => (1, 1)⟩ [7]).length = 9 ∧
    (runCodec ⟨"gzip", gzipLevels, fun _ _ => some [1], fun _ => some [7],
        "3.11", fun _ => (1, 1)⟩ [7]).map (fun r => r.method) =
      List.replicate 9 "gzip" ∧
    (runCodec ⟨"gzip", gzipLevels, fun _ _ => some [1], fun _ => some [7],
        "3.11", fun _ => (1, 1)⟩ [7]).map (fun r => r.level) =
      gzipLevels.map some ∧
    ∀ r ∈ runCodec ⟨"gzip", gzipLevels, fun _ _ => some [1],
        fun _ => some [7], "3.11", fun _ => (1, 1)⟩ [7],
      0 < r.compressed_size_bytes :=
  C3_level_matrix 1 9 (by norm_num) (fun _ _ => some [1]) (fun _ => some [7])
    "3.11" (fun _ => (1, 1)) [7]
    (fun l _ => ⟨[1], [7], rfl, by decide, rfl, rfl⟩)

/-- C5: a codec whose decompression always raises contributes zero entries,
and the full matrix run equals the run without that codec — every other
codec's entries are unchanged in count and content. -/
theorem C5_decompress_failure_isolation (xs ys : List Codec) (c : Codec)
    (data : Bytes) (hd : ∀ b, c.decompress b = none)
    (hn : ∀ c2 ∈ xs ++ ys, c2.name ≠ c.name) :
    runAll (xs ++ c :: ys) data = runAll (xs ++ ys) data ∧
    ∀ r ∈ runAll (xs ++ c :: ys) data, r.method ≠ c.name := by
  have key : runAll (xs ++ c :: ys) data = runAll (xs ++ ys) data := by
    rw [show xs ++ c :: ys = xs ++ [c] ++ ys from by simp, runAll_append,
      runAll_append, runAll_append]
    rw [show runAll [c] data = [] from by
      simp [runAll, runCodec_eq_nil_of_decompress_fail hd]]
    simp
  refine ⟨key, fun r hr => ?_⟩
  rw [key] at hr
  obtain ⟨c2, hc2, hrc⟩ := List.mem_flatMap.mp hr
  rw [mem_runCodec_method hrc]
  exact hn c2 hc2

/-- C5 witness: a working one-level gzip next to a snappy codec whose
decompressor always raises. -/
theorem C5_decompress_failure_isolation_witness :
    runAll ([⟨"gzip", [.int 1], fun _ _ => some [1], fun _ => some [7],
        "3.11", fun _ => (1, 1)⟩] ++
      (⟨"snappy", [.str "default"], fun _ _ => some [1], fun _ => none,
        "1.1", fun _ => (1, 1)⟩ : Codec) :: []) [7] =
      runAll ([⟨"gzip", [.int 1], fun _ _ => some [1], fun _ => some [7],
        "3.11", fun _ => (1, 1)⟩] ++ []) [7] ∧
    ∀ r ∈ runAll ([⟨"gzip", [.int 1], fun _ _ => some [1],
        fun _ => some [7], "3.11", fun _ => (1, 1)⟩] ++
      (⟨"snappy", [.str "default"], fun _ _ => some [1], fun _ => none,
        "1.1", fun _ => (1, 1)⟩ : Codec) :: []) [7],
      r.method ≠ "snappy" :=
  C5_decompress_failure_isolation
    [⟨"gzip", [.int 1], fun _ _ => some [1], fun _ => some [7], "3.11",
      fun _ => (1, 1)⟩] []
    ⟨"snappy", [.str "default"], fun _ _ => some [1], fun _ => none, "1.1",
      fun _ => (1, 1)⟩ [7] (fun _ => rfl)
    (by intro c2 hc2
        simp only [List.append_nil, List.mem_singleton] at hc2
        subst hc2
        decide)

/-- C9: the snappy section contributes exactly one trial configuration,
and any record it produces carries method "snappy" and the string level
"default" (not null and not an integer). -/
theorem C9_snappy_single_default_trial
    (compress : LevelVal → Bytes → Option Bytes)
    (decompress : Bytes → Option Bytes) (version : String)
    (tm : LevelVal → ℚ × ℚ) (data : Bytes) :
    snappyLevels.length = 1 ∧
    (runCodec ⟨"snappy", snappyLevels, compress, decompress, version, tm⟩
      data).length ≤ 1 ∧
    ∀ r ∈ runCodec ⟨"snappy", snappyLevels, compress, decompress, version,
      tm⟩ data, r.method = "snappy" ∧ r.level = some (.str "default") := by
  refine ⟨rfl, ?_, ?_⟩
  · calc (runCodec ⟨"snappy", snappyLevels, compress, decompress, version,
          tm⟩ data).length ≤ snappyLevels.length :=
            List.length_filterMap_le _ _
      _ = 1 := rfl
  · intro r hr
    obtain ⟨l, hl, hgl⟩ := List.mem_filterMap.mp hr
    obtain ⟨cd, dd, _, _, _, hm, hlvl, _⟩ := benchAlgo_some_inv hgl
    have hls : l = .str "default" := by simpa [snappyLevels] using hl
    exact ⟨hm, by rw [hlvl, hls]⟩

/-- C9 witness: a concrete successful snappy trial's record has method
"snappy" and level "default". -/
theorem C9_snappy_single_default_trial_witness :
    ({ method := "snappy", level := some (.str "default"), version := "1.1"
       compression_time_seconds := 1, decompression_time_seconds := 1
       compression_throughput_mib_s :=
         pyRound 2 (throughput (sizeMib [7]) 1)
       decompression_throughput_mib_s :=
         pyRound 2 (throughput (sizeMib [7]) 1)
       compressed_size_bytes := 1 } : TrialResult).method = "snappy" ∧
    ({ method := "snappy", level := some (.str "default"), version := "1.1"
       compression_time_seconds := 1, decompression_time_seconds := 1
       compression_throughput_mib_s :=
         pyRound 2 (throughput (sizeMib [7]) 1)
       decompression_throughput_mib_s :=
         pyRound 2 (throughput (sizeMib [7]) 1)
       compressed_size_bytes := 1 } : TrialResult).level =
      some (.str "default") :=
  (C9_snappy_single_default_trial (fun _ _ => some [1]) (fun _ => some [7])
    "1.1" (fun _ => (1, 1)) [7]).2.2 _
    (by dsimp only [runCodec, snappyLevels]
        rw [List.filterMap_cons,
          @benchAlgo_of_success (fun _ => some [1]) (fun _ => some [7]) [7]
            [1] [7] rfl rfl rfl]
        norm_num [pyRound, roundHalfEven])

/-- C6 counterexample: a concretely produced Trial Result serializes with
no "flags" key and no "binary_or_handle_id" key. -/
theorem C6_counterexample :
    (benchAlgo "gzip" (fun _ => some [1, 2]) (fun _ => some [0, 0, 0])
        [9, 9, 9] "3.11" (some (.int 1)) 0 0).map
        (fun r => (trialResultJson r).map Prod.fst) =
      some ["method", "level", "version", "compression_time_seconds",
        "decompression_time_seconds", "compression_throughput_mib_s",
        "decompression_throughput_mib_s", "compressed_size_bytes"] ∧
    "flags" ∉ ["method", "level", "version", "compression_time_seconds",
      "decompression_time_seconds", "compression_throughput_mib_s",
      "decompression_throughput_mib_s", "compressed_size_bytes"] ∧
    "binary_or_handle_id" ∉ ["method", "level", "version",
      "compression_time_seconds", "decompression_time_seconds",
      "compression_throughput_mib_s", "decompression_throughput_mib_s",
      "compressed_size_bytes"] := by
  refine ⟨?_, by decide, by decide⟩
  rw [@benchAlgo_of_success (fun _ => some [1, 2]) (fun _ => some [0, 0, 0])
    [9, 9, 9] [1, 2] [0, 0, 0] rfl rfl rfl]
  rfl

/-- C6 (amended): every persisted Trial Result record contains exactly the
fields method, level (nullable), version (string), the two timing fields,
the two throughput fields, and compressed_size_bytes — and in particular no
flags field and no binary_or_handle_id field. -/
theorem C6_persisted_fields (r : TrialResult) :
    (trialResultJson r).map Prod.fst =
      ["method", "level", "version", "compression_time_seconds",
       "decompression_time_seconds", "compression_throughput_mib_s",
       "decompression_throughput_mib_s", "compressed_size_bytes"] ∧
    "flags" ∉ (trialResultJson r).map Prod.fst ∧
    "binary_or_handle_id" ∉ (trialResultJson r).map Prod.fst := by
  refine ⟨rfl, ?_, ?_⟩ <;>
    · rw [show (trialResultJson r).map Prod.fst =
          ["method", "level", "version", "compression_time_seconds",
           "decompression_time_seconds", "compression_throughput_mib_s",
           "decompression_throughput_mib_s", "compressed_size_bytes"]
          from rfl]
      decide

/-- C6 witness: the amended field list at a concrete record. -/
theorem C6_persisted_fields_witness :
    (trialResultJson
        { method := "gzip", level := some (.int 1), version := "3.11"
          compression_time_seconds := 0, decompression_time_seconds := 0
          compression_throughput_mib_s := 0
          decompression_throughput_mib_s := 0
          compressed_size_bytes := 2 }).map Prod.fst =
      ["method", "level", "version", "compression_time_seconds",
       "decompression_time_seconds", "compression_throughput_mib_s",
       "decompression_throughput_mib_s", "compressed_size_bytes"] :=
  (C6_persisted_fields
    { method := "gzip", level := some (.int 1), version := "3.11"
      compression_time_seconds := 0, decompression_time_seconds := 0
      compression_throughput_mib_s := 0
      decompression_throughput_mib_s := 0
      compressed_size_bytes := 2 }).1

/-- C7 counterexample: the run metadata serializes with exactly the keys
timestamp, platform, python_version and original_file_size_bytes — none of
which is a CPU-model string, and there is no "cpu_model" key. -/
theorem C7_counterexample :
    (metadataJson
        (collectMetadata "2026-10-12 00:00:00" "Linux-6.1-x86_64" "3.11.4"
          [0])).map Prod.fst =
      ["timestamp", "platform", "python_version",
       "original_file_size_bytes"] ∧
    "cpu_model" ∉ ["timestamp", "platform", "python_version",
      "original_file_size_bytes"] :=
  ⟨rfl, by decide⟩

/-- C7 (amended): the Run Metadata captured once per run contains a
timestamp, a platform string, the Python version string and the corpus size
in bytes; no CPU-model string is collected (there is no CPU-model lookup in
the program). -/
theorem C7_run_metadata_fields (ts pf pv : String) (data : Bytes) :
    (metadataJson (collectMetadata ts pf pv data)).map Prod.fst =
      ["timestamp", "platform", "python_version",
       "original_file_size_bytes"] ∧
    (collectMetadata ts pf pv data).timestamp = ts ∧
    (collectMetadata ts pf pv data).platform = pf ∧
    (collectMetadata ts pf pv data).python_version = pv ∧
    (collectMetadata ts pf pv data).original_file_size_bytes = data.length :=
  ⟨rfl, rfl, rfl, rfl, rfl⟩

/-- C8 counterexample: brotli is not among the codecs the run benchmarks. -/
theorem C8_counterexample :
    (mainCodecs (fun _ _ _ => none) (fun _ _ => none) (fun _ => "v") 22
        (fun _ _ => (0, 0))).map (fun c => c.name) = mainCodecNames ∧
    "brotli" ∉ mainCodecNames :=
  ⟨rfl, by decide⟩

/-- C8 (amended): with every optional module available the run benchmarks
exactly gzip, bzip2, xz/LZMA, zstd, lz4 and snappy, in that order, sweeping
gzip and bzip2 levels 1–9, xz levels 0–9, zstd levels 1 through the
library maximum, lz4 levels 0–12 and 16, and one unleveled snappy trial;
every successful (codec, level) cell's record is persisted in the results
sequence. -/
theorem C8_codec_matrix (oc : String → LevelVal → Bytes → Option Bytes)
    (od : String → Bytes → Option Bytes) (ver : String → String)
    (maxZstd : ℤ) (tm : String → LevelVal → ℚ × ℚ) (data : Bytes) :
    (mainCodecs oc od ver maxZstd tm).map (fun c => c.name) =
      mainCodecNames ∧
    (mainCodecs oc od ver maxZstd tm).map (fun c => c.levels) =
      [gzipLevels, bzip2Levels, xzLevels, zstdLevels maxZstd, lz4Levels,
       snappyLevels] ∧
    (gzipLevels = [.int 1, .int 2, .int 3, .int 4, .int 5, .int 6, .int 7,
        .int 8, .int 9] ∧
      bzip2Levels = gzipLevels ∧
      xzLevels = [.int 0, .int 1, .int 2, .int 3, .int 4, .int 5, .int 6,
        .int 7, .int 8, .int 9] ∧
      (zstdLevels maxZstd).length = maxZstd.toNat ∧
      lz4Levels = [.int 0, .int 1, .int 2, .int 3, .int 4, .int 5, .int 6,
        .int 7, .int 8, .int 9, .int 10, .int 11, .int 12, .int 16] ∧
      snappyLevels = [.str "default"]) ∧
    ∀ c ∈ mainCodecs oc od ver maxZstd tm, ∀ l ∈ c.levels, ∀ r,
      benchAlgo c.name (c.compress l) c.decompress data c.version (some l)
        (c.times l).1 (c.times l).2 = some r →
      r ∈ runAll (mainCodecs oc od ver maxZstd tm) data := by
  refine ⟨rfl, rfl, ⟨by decide, by decide, by decide, ?_, by decide,
    rfl⟩, ?_⟩
  · rw [zstdLevels, List.length_map, pyRange_length]; omega
  · intro c hc l hl r hr
    exact List.mem_flatMap.mpr ⟨c, hc, List.mem_filterMap.mpr ⟨l, hl, hr⟩⟩

/-- C8 witness: a concrete successful gzip level-1 cell lands in the
results of the all-available matrix. -/
theorem C8_codec_matrix_witness :
    ({ method := "gzip", level := some (.int 1), version := "3.11"
       compression_time_seconds := pyRound 4 1
       decompression_time_seconds := pyRound 4 1
       compression_throughput_mib_s :=
         pyRound 2 (throughput (sizeMib [7]) 1)
       decompression_throughput_mib_s :=
         pyRound 2 (throughput (sizeMib [7]) 1)
       compressed_size_bytes := 1 } : TrialResult) ∈
      runAll (mainCodecs (fun _ _ _ => some [1]) (fun _ _ => some [7])
        (fun _ => "3.11") 22 (fun _ _ => (1, 1))) [7] :=
  (C8_codec_matrix (fun _ _ _ => some [1]) (fun _ _ => some [7])
    (fun _ => "3.11") 22 (fun _ _ => (1, 1)) [7]).2.2.2
    ⟨"gzip", gzipLevels, (fun _ _ => some [1]), (fun _ => some [7]), "3.11",
      (fun _ => (1, 1))⟩
    (by rw [show mainCodecs (fun _ _ _ => some [1]) (fun _ _ => some [7])
          (fun _ => "3.11") 22 (fun _ _ => (1, 1)) = _ from rfl]
        exact List.mem_cons_self _ _)
    (.int 1) (by decide) _
    (@benchAlgo_of_success (fun _ => some [1]) (fun _ => some [7]) [7] [1]
      [7] rfl rfl rfl _ _ _ _ _)
